import Mathlib

/-!
Verification of the locket lock service core against its design document.

The Go sources embedded here are `handlers/handler.go` (the Lock Engine
façade: the `locketHandler` struct and its four RPC methods) and
`cmd/locket/config/config.go` (the `LocketConfig` loader).  The client-side
lock Runner (`lock.NewLockRunner`) ships only with its test suite in this
snapshot, so it is modelled from the design document's state machine.

Machine integers: Go `int64`/`int` are modelled as `Int` (no arithmetic in
the embedded code can overflow: the handler only compares `TtlInSeconds`
with zero and the config loader copies values verbatim).
-/

namespace Locket

/-- `models.Resource`: the wire record `(key, owner, value, type)`. -/
structure Resource where
  key : String
  owner : String
  value : String
  type : String
deriving DecidableEq, Repr

/-- `models.Lock`, the Store row (`LockRecord` of the design document):
the resource plus `ttl_seconds`, `modified_index` and `modified_id`. -/
structure LockRecord where
  resource : Resource
  ttlInSeconds : Int
  modifiedIndex : Int
  modifiedId : String
deriving DecidableEq, Repr

/-- Go `error` values the handler can see: `models.ErrInvalidTTL`, the
Store's logical errors, and arbitrary other errors (`other msg`), so that
verbatim propagation is observable. -/
inductive GoError where
  | invalidTTL
  | lockCollision
  | notFound
  | notOwner
  | storeError (msg : String)
  | other (msg : String)
deriving DecidableEq, Repr

instance instDecEqExcept {ε α : Type} [DecidableEq ε] [DecidableEq α] :
    DecidableEq (Except ε α) := fun x y =>
  match x, y with
  | Except.ok a, Except.ok b =>
      if h : a = b then Decidable.isTrue (congrArg Except.ok h)
      else Decidable.isFalse (fun hc => h (Except.ok.inj hc))
  | Except.error a, Except.error b =>
      if h : a = b then Decidable.isTrue (congrArg Except.error h)
      else Decidable.isFalse (fun hc => h (Except.error.inj hc))
  | Except.ok _, Except.error _ => Decidable.isFalse (fun hc => Except.noConfusion hc)
  | Except.error _, Except.ok _ => Decidable.isFalse (fun hc => Except.noConfusion hc)

/-- `models.LockRequest`: a resource and `ttl_in_seconds : int64`. -/
structure LockRequest where
  resource : Resource
  ttlInSeconds : Int
deriving DecidableEq, Repr

/-- `models.ReleaseRequest`. -/
structure ReleaseRequest where
  resource : Resource
deriving DecidableEq, Repr

/-- `models.FetchRequest`. -/
structure FetchRequest where
  key : String
deriving DecidableEq, Repr

/-- Modelled from the spec: `models.FetchAllRequest` is not in the sampled
sources; the wire schema of the design document gives it a single optional
`type_filter : string` field (empty string when unset). -/
structure FetchAllRequest where
  typeFilter : String
deriving DecidableEq, Repr

/-- `models.LockResponse` (empty message). -/
structure LockResponse where
deriving DecidableEq, Repr

/-- `models.ReleaseResponse` (empty message). -/
structure ReleaseResponse where
deriving DecidableEq, Repr

/-- `models.FetchResponse`: the fetched resource. -/
structure FetchResponse where
  resource : Resource
deriving DecidableEq, Repr

/-- `models.FetchAllResponse`: the list of resources.  A Go `nil` slice and
an empty slice are both the empty list. -/
structure FetchAllResponse where
  resources : List Resource
deriving DecidableEq, Repr

/-- `db.LockDB`, the Store capability the handler is constructed with,
as a pure oracle: each operation's outcome.  `lock` mirrors
`LockDB.Lock(logger, resource, ttlInSeconds)`; `fetchAll` mirrors
`LockDB.FetchAll(logger)` — it receives nothing from the request. -/
structure LockDB where
  lock : Resource → Int → Except GoError LockRecord
  release : Resource → Except GoError Unit
  fetch : String → Except GoError LockRecord
  fetchAll : Except GoError (List LockRecord)

/-- One call the handler makes on the Store, recorded in order. -/
inductive DbCall where
  | lock (resource : Resource) (ttlInSeconds : Int)
  | release (resource : Resource)
  | fetch (key : String)
  | fetchAll
deriving DecidableEq, Repr

/-- What one handler invocation does: its returned value (`Except.error e`
models the Go `(nil, err)` return, `Except.ok` the `(resp, nil)` return),
the Store calls it made, and the records it passed to
`LockPick.RegisterTTL`. -/
structure HandlerOut (α : Type) where
  result : Except GoError α
  dbCalls : List DbCall
  registered : List LockRecord
deriving Repr

/-- `locketHandler.Lock`: reject `TtlInSeconds <= 0` with
`models.ErrInvalidTTL`; otherwise call `db.Lock`; on error return it with
a nil response; on success call `lockPick.RegisterTTL(logger, lock)` and
return an empty `LockResponse`. -/
def lockHandler (db : LockDB) (req : LockRequest) : HandlerOut LockResponse :=
  if req.ttlInSeconds ≤ 0 then
    { result := Except.error GoError.invalidTTL, dbCalls := [], registered := [] }
  else
    match db.lock req.resource req.ttlInSeconds with
    | Except.error e =>
        { result := Except.error e
          dbCalls := [DbCall.lock req.resource req.ttlInSeconds]
          registered := [] }
    | Except.ok lock =>
        { result := Except.ok {}
          dbCalls := [DbCall.lock req.resource req.ttlInSeconds]
          registered := [lock] }

/-- `locketHandler.Release`: call `db.Release(logger, resource)`; on error
return it with a nil response, else an empty `ReleaseResponse`. -/
def releaseHandler (db : LockDB) (req : ReleaseRequest) : HandlerOut ReleaseResponse :=
  match db.release req.resource with
  | Except.error e =>
      { result := Except.error e
        dbCalls := [DbCall.release req.resource]
        registered := [] }
  | Except.ok _ =>
      { result := Except.ok {}
        dbCalls := [DbCall.release req.resource]
        registered := [] }

/-- `locketHandler.Fetch`: call `db.Fetch(logger, key)`; on error return it
with a nil response, else a `FetchResponse` carrying `lock.Resource`. -/
def fetchHandler (db : LockDB) (req : FetchRequest) : HandlerOut FetchResponse :=
  match db.fetch req.key with
  | Except.error e =>
      { result := Except.error e
        dbCalls := [DbCall.fetch req.key]
        registered := [] }
  | Except.ok lock =>
      { result := Except.ok { resource := lock.resource }
        dbCalls := [DbCall.fetch req.key]
        registered := [] }

/-- `locketHandler.FetchAll`: call `db.FetchAll(logger)` — the request
contributes nothing to the call; on error return it with a nil response,
else one resource per returned record, in order. -/
def fetchAllHandler (db : LockDB) (req : FetchAllRequest) :
    HandlerOut FetchAllResponse :=
  match db.fetchAll with
  | Except.error e =>
      { result := Except.error e
        dbCalls := [DbCall.fetchAll]
        registered := [] }
  | Except.ok locks =>
      { result := Except.ok { resources := locks.map (fun l => l.resource) }
        dbCalls := [DbCall.fetchAll]
        registered := [] }

/-- `lagerflags.LagerConfig` (external dependency), modelled by the one
field the sampled sources exercise: `log_level`. -/
structure LagerConfig where
  logLevel : String
deriving DecidableEq, Repr

/-- `lagerflags.DefaultLagerConfig()`: log level `"info"`. -/
def DefaultLagerConfig : LagerConfig := { logLevel := "info" }

/-- `debugserver.DebugServerConfig` (external dependency), modelled by its
`debug_address` field. -/
structure DebugServerConfig where
  debugAddress : String
deriving DecidableEq, Repr

/-- `loggingclient.Config` (external dependency), modelled opaquely: a
payload the decoder copies verbatim into the `loggregator` field. -/
structure LoggregatorConfig where
  raw : String
deriving DecidableEq, Repr

/-- `config.LocketConfig`: the JSON-tagged fields of the Go struct, with
the embedded `DebugServerConfig` and `LagerConfig` inlined the way
`encoding/json` inlines embedded structs. -/
structure LocketConfig where
  caFile : String
  certFile : String
  consulCluster : String
  databaseConnectionString : String
  maxOpenDatabaseConnections : Int
  databaseDriver : String
  dropsondePort : Int
  keyFile : String
  listenAddress : String
  sqlCACertFile : String
  loggregatorConfig : LoggregatorConfig
  debugServerConfig : DebugServerConfig
  lagerConfig : LagerConfig
deriving DecidableEq, Repr

/-- Go's zero value `LocketConfig{}`: empty strings, zero ints, zero
sub-structs. -/
def zeroLocketConfig : LocketConfig :=
  { caFile := ""
    certFile := ""
    consulCluster := ""
    databaseConnectionString := ""
    maxOpenDatabaseConnections := 0
    databaseDriver := ""
    dropsondePort := 0
    keyFile := ""
    listenAddress := ""
    sqlCACertFile := ""
    loggregatorConfig := { raw := "" }
    debugServerConfig := { debugAddress := "" }
    lagerConfig := { logLevel := "" } }

/-- `config.DefaultLocketConfig()`: the zero value with
`LagerConfig: lagerflags.DefaultLagerConfig()` and
`DatabaseDriver: "mysql"`. -/
def DefaultLocketConfig : LocketConfig :=
  { zeroLocketConfig with
    lagerConfig := DefaultLagerConfig
    databaseDriver := "mysql" }

/-- The JSON keys of `LocketConfig` (embedded structs inlined, as
`encoding/json` sees them). -/
inductive ConfigKey where
  | caFile
  | certFile
  | consulCluster
  | databaseConnectionString
  | maxOpenDatabaseConnections
  | databaseDriver
  | dropsondePort
  | keyFile
  | listenAddress
  | sqlCACertFile
  | loggregator
  | debugAddress
  | logLevel
deriving DecidableEq, Repr

/-- One key/value pair present in the decoded JSON object.  A parsed
config file is a list of these; `json.Decoder.Decode` into a pre-filled
struct assigns each present key over the existing value and leaves absent
keys untouched. -/
inductive ConfigField where
  | caFile (s : String)
  | certFile (s : String)
  | consulCluster (s : String)
  | databaseConnectionString (s : String)
  | maxOpenDatabaseConnections (n : Int)
  | databaseDriver (s : String)
  | dropsondePort (n : Int)
  | keyFile (s : String)
  | listenAddress (s : String)
  | sqlCACertFile (s : String)
  | loggregator (c : LoggregatorConfig)
  | debugAddress (s : String)
  | logLevel (s : String)
deriving DecidableEq, Repr

/-- The key a `ConfigField` sets. -/
def keyOf : ConfigField → ConfigKey
  | ConfigField.caFile _ => ConfigKey.caFile
  | ConfigField.certFile _ => ConfigKey.certFile
  | ConfigField.consulCluster _ => ConfigKey.consulCluster
  | ConfigField.databaseConnectionString _ => ConfigKey.databaseConnectionString
  | ConfigField.maxOpenDatabaseConnections _ => ConfigKey.maxOpenDatabaseConnections
  | ConfigField.databaseDriver _ => ConfigKey.databaseDriver
  | ConfigField.dropsondePort _ => ConfigKey.dropsondePort
  | ConfigField.keyFile _ => ConfigKey.keyFile
  | ConfigField.listenAddress _ => ConfigKey.listenAddress
  | ConfigField.sqlCACertFile _ => ConfigKey.sqlCACertFile
  | ConfigField.loggregator _ => ConfigKey.loggregator
  | ConfigField.debugAddress _ => ConfigKey.debugAddress
  | ConfigField.logLevel _ => ConfigKey.logLevel

/-- Assign one decoded key over the current config value, the way
`json.Decoder.Decode(&locketConfig)` does for each key present in the
file. -/
def applyField (c : LocketConfig) : ConfigField → LocketConfig
  | ConfigField.caFile s => { c with caFile := s }
  | ConfigField.certFile s => { c with certFile := s }
  | ConfigField.consulCluster s => { c with consulCluster := s }
  | ConfigField.databaseConnectionString s => { c with databaseConnectionString := s }
  | ConfigField.maxOpenDatabaseConnections n => { c with maxOpenDatabaseConnections := n }
  | ConfigField.databaseDriver s => { c with databaseDriver := s }
  | ConfigField.dropsondePort n => { c with dropsondePort := n }
  | ConfigField.keyFile s => { c with keyFile := s }
  | ConfigField.listenAddress s => { c with listenAddress := s }
  | ConfigField.sqlCACertFile s => { c with sqlCACertFile := s }
  | ConfigField.loggregator l => { c with loggregatorConfig := l }
  | ConfigField.debugAddress s => { c with debugServerConfig := { debugAddress := s } }
  | ConfigField.logLevel s => { c with lagerConfig := { logLevel := s } }

/-- Read back the field a key names, repackaged as a `ConfigField` so that
every key's value has one common type. -/
def getField (k : ConfigKey) (c : LocketConfig) : ConfigField :=
  match k with
  | ConfigKey.caFile => ConfigField.caFile c.caFile
  | ConfigKey.certFile => ConfigField.certFile c.certFile
  | ConfigKey.consulCluster => ConfigField.consulCluster c.consulCluster
  | ConfigKey.databaseConnectionString =>
      ConfigField.databaseConnectionString c.databaseConnectionString
  | ConfigKey.maxOpenDatabaseConnections =>
      ConfigField.maxOpenDatabaseConnections c.maxOpenDatabaseConnections
  | ConfigKey.databaseDriver => ConfigField.databaseDriver c.databaseDriver
  | ConfigKey.dropsondePort => ConfigField.dropsondePort c.dropsondePort
  | ConfigKey.keyFile => ConfigField.keyFile c.keyFile
  | ConfigKey.listenAddress => ConfigField.listenAddress c.listenAddress
  | ConfigKey.sqlCACertFile => ConfigField.sqlCACertFile c.sqlCACertFile
  | ConfigKey.loggregator => ConfigField.loggregator c.loggregatorConfig
  | ConfigKey.debugAddress => ConfigField.debugAddress c.debugServerConfig.debugAddress
  | ConfigKey.logLevel => ConfigField.logLevel c.lagerConfig.logLevel

/-- The last assignment a decoded file makes to key `k`, if any (the
head of the list decodes first, so later elements win). -/
def lastSet (k : ConfigKey) : List ConfigField → Option ConfigField
  | [] => none
  | u :: fs =>
      match lastSet k fs with
      | some v => some v
      | none => if keyOf u = k then some u else none

/-- The two failure modes of `NewLocketConfig`: `os.Open` fails, or
`decoder.Decode` fails. -/
inductive ConfigError where
  | openError
  | decodeError
deriving DecidableEq, Repr

/-- What the filesystem yields for the config path: `none` when the file
cannot be opened; `some none` when it opens but is not valid JSON;
`some (some fs)` when it decodes to the key/value list `fs`. -/
abbrev ConfigFile := Option (Option (List ConfigField))

/-- `config.NewLocketConfig`: start from `DefaultLocketConfig()`; if
`os.Open` fails return `(LocketConfig{}, err)`; if `Decode` fails return
`(LocketConfig{}, err)`; otherwise the decode assigns each present key in
order over the defaults.  The Go `(config, error)` pair is kept as a pair,
`none` standing for the nil error. -/
def NewLocketConfig (file : ConfigFile) : LocketConfig × Option ConfigError :=
  match file with
  | none => (zeroLocketConfig, some ConfigError.openError)
  | some none => (zeroLocketConfig, some ConfigError.decodeError)
  | some (some fs) => (fs.foldl applyField DefaultLocketConfig, none)

/-- Modelled from the spec: the arguments `lock.NewLockRunner` is built
with — the resource, the ttl, and the retry interval of the injected
clock (an abstract duration). -/
structure RunnerConfig where
  resource : Resource
  ttlInSeconds : Int
  retryInterval : Nat
deriving DecidableEq, Repr

/-- Modelled from the spec: the Runner's control state.  `failed` carries
the non-nil error the Runner returns to the application. -/
inductive RunnerPhase where
  | acquiring
  | holding
  | done
  | failed (e : GoError)
deriving DecidableEq, Repr

/-- Modelled from the spec: one occurrence the Runner reacts to.
`lockDone out` is the completion of the Lock RPC the Runner currently has
in flight (the initial acquire while ACQUIRING, a renewal — issued on a
retry-interval tick — while HOLDING).  `cancel rel` is the cancellation
signal; `rel` is the outcome the Release RPC would return if the Runner
issues one (carried by the event so that ignoring it is observable). -/
inductive RunnerEvent where
  | lockDone (out : Except GoError Unit)
  | cancel (rel : Except GoError Unit)
deriving DecidableEq, Repr

/-- Modelled from the spec: the Runner's state plus everything it has done
that the application or the service can observe: each Lock RPC's
`(resource, ttl)` argument, each Release RPC's resource, the durations
slept through the injected clock, and whether *ready* has been
signalled. -/
structure RunnerState where
  phase : RunnerPhase
  lockCalls : List (Resource × Int)
  releaseCalls : List Resource
  sleeps : List Nat
  ready : Bool
deriving DecidableEq, Repr

/-- Modelled from the spec: the Runner before any event: ACQUIRING with
its first Lock RPC in flight, nothing observed yet. -/
def runnerInit : RunnerState :=
  { phase := RunnerPhase.acquiring
    lockCalls := []
    releaseCalls := []
    sleeps := []
    ready := false }

/-- Modelled from the spec: one transition of the Runner state machine.
ACQUIRING: a failed Lock sleeps `retry_interval` through the clock and
retries with the identical resource and ttl; a successful Lock signals
*ready* and moves to HOLDING; cancellation moves straight to DONE without
a Release (nothing was acquired).  HOLDING: a successful renewal stays
HOLDING (the tick slept `retry_interval` first); a failed renewal moves to
FAILED with that error, never retried; cancellation issues one Release
with the acquired resource, ignores its outcome, and moves to DONE.
DONE and FAILED absorb every further event. -/
def runnerStep (cfg : RunnerConfig) (s : RunnerState) : RunnerEvent → RunnerState
  | RunnerEvent.lockDone out =>
      match s.phase with
      | RunnerPhase.acquiring =>
          match out with
          | Except.ok _ =>
              { s with
                phase := RunnerPhase.holding
                lockCalls := s.lockCalls ++ [(cfg.resource, cfg.ttlInSeconds)]
                ready := true }
          | Except.error _ =>
              { s with
                lockCalls := s.lockCalls ++ [(cfg.resource, cfg.ttlInSeconds)]
                sleeps := s.sleeps ++ [cfg.retryInterval] }
      | RunnerPhase.holding =>
          match out with
          | Except.ok _ =>
              { s with
                lockCalls := s.lockCalls ++ [(cfg.resource, cfg.ttlInSeconds)]
                sleeps := s.sleeps ++ [cfg.retryInterval] }
          | Except.error e =>
              { s with
                phase := RunnerPhase.failed e
                lockCalls := s.lockCalls ++ [(cfg.resource, cfg.ttlInSeconds)]
                sleeps := s.sleeps ++ [cfg.retryInterval] }
      | RunnerPhase.done => s
      | RunnerPhase.failed _ => s
  | RunnerEvent.cancel _rel =>
      match s.phase with
      | RunnerPhase.acquiring => { s with phase := RunnerPhase.done }
      | RunnerPhase.holding =>
          { s with
            phase := RunnerPhase.done
            releaseCalls := s.releaseCalls ++ [cfg.resource] }
      | RunnerPhase.done => s
      | RunnerPhase.failed _ => s

/-- Modelled from the spec: the Runner run over a finite event schedule. -/
def runnerRun (cfg : RunnerConfig) (evs : List RunnerEvent) : RunnerState :=
  evs.foldl (runnerStep cfg) runnerInit

/-- Modelled from the spec: what the application sees when the Runner
terminates — `none` while it is still running, `some none` for a clean
exit, `some (some e)` for the non-nil error of a lost lock. -/
def runnerExit (s : RunnerState) : Option (Option GoError) :=
  match s.phase with
  | RunnerPhase.acquiring => none
  | RunnerPhase.holding => none
  | RunnerPhase.done => some none
  | RunnerPhase.failed e => some (some e)

/-- `true` for the Store calls that only read (`Fetch`, `FetchAll`). -/
def isReadOnlyCall : DbCall → Bool
  | DbCall.lock _ _ => false
  | DbCall.release _ => false
  | DbCall.fetch _ => true
  | DbCall.fetchAll => true

/-- Concrete fixture: a resource. -/
def exResource : Resource :=
  { key := "k", owner := "A", value := "v", type := "lock" }

/-- Concrete fixture: a Store row for `exResource`. -/
def exRecord : LockRecord :=
  { resource := exResource, ttlInSeconds := 10, modifiedIndex := 1, modifiedId := "m1" }

/-- Concrete fixture: a Store whose every operation succeeds. -/
def exDbOk : LockDB :=
  { lock := fun _ _ => Except.ok exRecord
    release := fun _ => Except.ok ()
    fetch := fun _ => Except.ok exRecord
    fetchAll := Except.ok [exRecord] }

/-- Concrete fixture: a Store whose every operation fails. -/
def exDbErr : LockDB :=
  { lock := fun _ _ => Except.error (GoError.other "boom")
    release := fun _ => Except.error GoError.notOwner
    fetch := fun _ => Except.error GoError.notFound
    fetchAll := Except.error (GoError.storeError "conn reset") }

/-- Concrete fixture: a resource of type `"a"`. -/
def exResourceA : Resource :=
  { key := "ka", owner := "A", value := "va", type := "a" }

/-- Concrete fixture: a Store row for `exResourceA`. -/
def exRecordA : LockRecord :=
  { resource := exResourceA, ttlInSeconds := 5, modifiedIndex := 1, modifiedId := "m2" }

/-- Concrete fixture: a Store holding exactly the one record of type
`"a"`. -/
def exDbTypeA : LockDB :=
  { lock := fun _ _ => Except.error GoError.lockCollision
    release := fun _ => Except.ok ()
    fetch := fun _ => Except.ok exRecordA
    fetchAll := Except.ok [exRecordA] }

/-! ## Theorems -/

/-- C1: for every Lock request with ttl > 0 whose Store `Lock` call
succeeds, the handler registers exactly the returned record with the
Scheduler and returns an empty successful response; and `RegisterTTL` is
never called when the Store call returns an error. -/
theorem lock_reserve_then_register (db : LockDB) (req : LockRequest)
    (rec : LockRecord) (httl : ¬ req.ttlInSeconds ≤ 0)
    (hdb : db.lock req.resource req.ttlInSeconds = Except.ok rec) :
    lockHandler db req =
      { result := Except.ok {}
        dbCalls := [DbCall.lock req.resource req.ttlInSeconds]
        registered := [rec] } ∧
    ∀ (db' : LockDB) (req' : LockRequest) (e : GoError),
      db'.lock req'.resource req'.ttlInSeconds = Except.error e →
      (lockHandler db' req').registered = [] := by
  constructor
  · simp only [lockHandler, if_neg httl, hdb]
  · intro db' req' e he
    by_cases h : req'.ttlInSeconds ≤ 0
    · simp only [lockHandler, if_pos h]
    · simp only [lockHandler, if_neg h, he]

/-- Witness for C1 at a concrete store and request. -/
theorem lock_reserve_then_register_witness :
    lockHandler exDbOk { resource := exResource, ttlInSeconds := 10 } =
      { result := Except.ok {}
        dbCalls := [DbCall.lock exResource 10]
        registered := [exRecord] } ∧
    (lockHandler exDbErr { resource := exResource, ttlInSeconds := 10 }).registered = [] := by
  have h := lock_reserve_then_register exDbOk
    { resource := exResource, ttlInSeconds := 10 } exRecord (by decide) rfl
  exact ⟨h.1, h.2 exDbErr { resource := exResource, ttlInSeconds := 10 }
    (GoError.other "boom") rfl⟩

/-- C2: provided the Store itself never produces `ErrInvalidTTL`, the Lock
handler returns `InvalidTTL` exactly when `ttl_in_seconds ≤ 0`; and in
that case it returns the same answer for every store, making no Store
call and no registration. -/
theorem lock_invalid_ttl_short_circuit (db : LockDB) (req : LockRequest)
    (hdb : ∀ (r : Resource) (t : Int),
      db.lock r t ≠ Except.error GoError.invalidTTL) :
    ((lockHandler db req).result = Except.error GoError.invalidTTL ↔
      req.ttlInSeconds ≤ 0) ∧
    (req.ttlInSeconds ≤ 0 →
      ∀ db' : LockDB, lockHandler db' req =
        { result := Except.error GoError.invalidTTL
          dbCalls := []
          registered := [] }) := by
  by_cases h : req.ttlInSeconds ≤ 0
  · refine ⟨?_, fun _ db' => by simp [lockHandler, if_pos h]⟩
    simp [lockHandler, if_pos h]
    exact h
  · refine ⟨?_, fun hc => absurd hc h⟩
    simp only [lockHandler, if_neg h]
    constructor
    · intro hres
      cases he : db.lock req.resource req.ttlInSeconds with
      | ok rec => rw [he] at hres; exact absurd hres (by simp)
      | error e =>
          rw [he] at hres
          simp only at hres
          cases hres
          exact absurd he (hdb req.resource req.ttlInSeconds)
    · intro hle
      exact absurd hle h

/-- Witness for C2 at a concrete store and a `ttl = 0` request. -/
theorem lock_invalid_ttl_short_circuit_witness :
    ((lockHandler exDbErr { resource := exResource, ttlInSeconds := 0 }).result =
        Except.error GoError.invalidTTL ↔ (0 : Int) ≤ 0) ∧
    ((0 : Int) ≤ 0 →
      ∀ db' : LockDB,
        lockHandler db' { resource := exResource, ttlInSeconds := 0 } =
          { result := Except.error GoError.invalidTTL
            dbCalls := []
            registered := [] }) :=
  lock_invalid_ttl_short_circuit exDbErr
    { resource := exResource, ttlInSeconds := 0 }
    (by intro r t h; simp [exDbErr] at h)

/-- C4: when the underlying Store call fails, each of the four handlers
returns that same error value verbatim with a nil response (the
`Except.error` branch), having made only that one Store call and no
registration.  For Lock the Store is only consulted when `ttl > 0`. -/
theorem handler_propagates_store_errors (db : LockDB) (e : GoError) :
    (∀ req : LockRequest, ¬ req.ttlInSeconds ≤ 0 →
      db.lock req.resource req.ttlInSeconds = Except.error e →
      lockHandler db req =
        { result := Except.error e
          dbCalls := [DbCall.lock req.resource req.ttlInSeconds]
          registered := [] }) ∧
    (∀ req : ReleaseRequest, db.release req.resource = Except.error e →
      releaseHandler db req =
        { result := Except.error e
          dbCalls := [DbCall.release req.resource]
          registered := [] }) ∧
    (∀ req : FetchRequest, db.fetch req.key = Except.error e →
      fetchHandler db req =
        { result := Except.error e
          dbCalls := [DbCall.fetch req.key]
          registered := [] }) ∧
    (∀ req : FetchAllRequest, db.fetchAll = Except.error e →
      fetchAllHandler db req =
        { result := Except.error e
          dbCalls := [DbCall.fetchAll]
          registered := [] }) := by
  refine ⟨fun req httl hdb => ?_, fun req hdb => ?_, fun req hdb => ?_,
    fun req hdb => ?_⟩
  · simp only [lockHandler, if_neg httl, hdb]
  · simp only [releaseHandler, hdb]
  · simp only [fetchHandler, hdb]
  · simp only [fetchAllHandler, hdb]

/-- Witness for C4: the all-failing concrete store, one request per
operation. -/
theorem handler_propagates_store_errors_witness :
    lockHandler exDbErr { resource := exResource, ttlInSeconds := 10 } =
      { result := Except.error (GoError.other "boom")
        dbCalls := [DbCall.lock exResource 10]
        registered := [] } ∧
    releaseHandler exDbErr { resource := exResource } =
      { result := Except.error GoError.notOwner
        dbCalls := [DbCall.release exResource]
        registered := [] } ∧
    fetchHandler exDbErr { key := "k" } =
      { result := Except.error GoError.notFound
        dbCalls := [DbCall.fetch "k"]
        registered := [] } ∧
    fetchAllHandler exDbErr { typeFilter := "" } =
      { result := Except.error (GoError.storeError "conn reset")
        dbCalls := [DbCall.fetchAll]
        registered := [] } :=
  ⟨(handler_propagates_store_errors exDbErr (GoError.other "boom")).1
      { resource := exResource, ttlInSeconds := 10 } (by decide) rfl,
   (handler_propagates_store_errors exDbErr GoError.notOwner).2.1
      { resource := exResource } rfl,
   (handler_propagates_store_errors exDbErr GoError.notFound).2.2.1
      { key := "k" } rfl,
   (handler_propagates_store_errors exDbErr (GoError.storeError "conn reset")).2.2.2
      { typeFilter := "" } rfl⟩

/-- C5: when the Store resolves the fetched key to a record, the response
carries exactly that record's resource and nothing else; and Fetch only
ever makes read-only Store calls and registers nothing. -/
theorem fetch_passthrough (db : LockDB) (req : FetchRequest)
    (rec : LockRecord) (h : db.fetch req.key = Except.ok rec) :
    fetchHandler db req =
      { result := Except.ok { resource := rec.resource }
        dbCalls := [DbCall.fetch req.key]
        registered := [] } ∧
    ∀ (db' : LockDB) (req' : FetchRequest),
      (fetchHandler db' req').dbCalls.all isReadOnlyCall = true ∧
      (fetchHandler db' req').registered = [] := by
  constructor
  · simp only [fetchHandler, h]
  · intro db' req'
    cases he : db'.fetch req'.key with
    | ok rec' => simp [fetchHandler, he, isReadOnlyCall]
    | error e => simp [fetchHandler, he, isReadOnlyCall]

/-- Witness for C5 at a concrete store and key. -/
theorem fetch_passthrough_witness :
    fetchHandler exDbOk { key := "k" } =
      { result := Except.ok { resource := exResource }
        dbCalls := [DbCall.fetch "k"]
        registered := [] } ∧
    ∀ (db' : LockDB) (req' : FetchRequest),
      (fetchHandler db' req').dbCalls.all isReadOnlyCall = true ∧
      (fetchHandler db' req').registered = [] :=
  fetch_passthrough exDbOk { key := "k" } exRecord rfl

/-- C10: on Store success, FetchAll answers with one resource per record,
in the Store's order, each the record's `Resource` field; an empty record
list yields an empty resource list and no error. -/
theorem fetchAll_maps_records (db : LockDB) (req : FetchAllRequest)
    (locks : List LockRecord) (h : db.fetchAll = Except.ok locks) :
    (fetchAllHandler db req).result =
      Except.ok { resources := locks.map (fun l => l.resource) } ∧
    (locks = [] →
      fetchAllHandler db req =
        { result := Except.ok { resources := [] }
          dbCalls := [DbCall.fetchAll]
          registered := [] }) := by
  constructor
  · simp only [fetchAllHandler, h]
  · intro hnil
    subst hnil
    simp only [fetchAllHandler, h, List.map_nil]

/-- Witness for C10 at a concrete store. -/
theorem fetchAll_maps_records_witness :
    (fetchAllHandler exDbOk { typeFilter := "" }).result =
      Except.ok { resources := [exRecord].map (fun l => l.resource) } ∧
    ([exRecord] = ([] : List LockRecord) →
      fetchAllHandler exDbOk { typeFilter := "" } =
        { result := Except.ok { resources := [] }
          dbCalls := [DbCall.fetchAll]
          registered := [] }) :=
  fetchAll_maps_records exDbOk { typeFilter := "" } [exRecord] rfl

/-- C3 as stated is false on the code: the handler passes nothing from the
request to `db.FetchAll`, so a record whose type differs from a non-empty
`type_filter` is still returned.  Concretely: a store holding one record
of type `"a"` answers a request with filter `"b"` with that record, where
exact-match filtering would answer with the empty list. -/
theorem fetchAll_filter_counterexample :
    ¬ (∀ (db : LockDB) (req : FetchAllRequest) (locks : List LockRecord),
        db.fetchAll = Except.ok locks →
        (fetchAllHandler db req).result = Except.ok
          { resources :=
              (locks.filter (fun l =>
                req.typeFilter == "" || l.resource.type == req.typeFilter)).map
                (fun l => l.resource) }) := by
  intro h
  have hc := h exDbTypeA { typeFilter := "b" } [exRecordA] rfl
  simp [fetchAllHandler, exDbTypeA, exRecordA, exResourceA] at hc

/-- C3 amended: FetchAll ignores any type filter in the request — it
returns one resource per record the Store holds, whatever the records'
types, and its whole observable behaviour is independent of the
request. -/
theorem fetchAll_ignores_filter (db : LockDB) (req : FetchAllRequest)
    (locks : List LockRecord) (h : db.fetchAll = Except.ok locks) :
    (fetchAllHandler db req).result =
      Except.ok { resources := locks.map (fun l => l.resource) } ∧
    ∀ req' : FetchAllRequest, fetchAllHandler db req' = fetchAllHandler db req := by
  constructor
  · simp only [fetchAllHandler, h]
  · intro req'
    rfl

/-- Witness for the amended C3: the type-`"a"` store answers a
filter-`"b"` request with the type-`"a"` resource. -/
theorem fetchAll_ignores_filter_witness :
    (fetchAllHandler exDbTypeA { typeFilter := "b" }).result =
      Except.ok { resources := [exRecordA].map (fun l => l.resource) } ∧
    ∀ req' : FetchAllRequest,
      fetchAllHandler exDbTypeA req' =
        fetchAllHandler exDbTypeA { typeFilter := "b" } :=
  fetchAll_ignores_filter exDbTypeA { typeFilter := "b" } [exRecordA] rfl

/-- Assigning a key other than `k` leaves the field `k` names
untouched. -/
theorem getField_applyField_ne (c : LocketConfig) (u : ConfigField)
    (k : ConfigKey) (h : keyOf u ≠ k) :
    getField k (applyField c u) = getField k c := by
  cases u <;> cases k <;> first | rfl | exact absurd rfl h

/-- Assigning the key `k` names makes reading `k` back yield exactly the
assigned pair. -/
theorem getField_applyField_eq (c : LocketConfig) (u : ConfigField)
    (k : ConfigKey) (h : keyOf u = k) :
    getField k (applyField c u) = u := by
  cases u <;> cases k <;> first | rfl | exact ConfigKey.noConfusion h

/-- Decoding a key/value list over a start value: each field ends at its
last assignment, or at the start value when never assigned. -/
theorem getField_foldl (k : ConfigKey) :
    ∀ (fs : List ConfigField) (c : LocketConfig),
      getField k (fs.foldl applyField c) =
        (lastSet k fs).getD (getField k c) := by
  intro fs
  induction fs with
  | nil => intro c; rfl
  | cons u fs ih =>
      intro c
      simp only [List.foldl_cons]
      rw [ih]
      cases hl : lastSet k fs with
      | some v => simp [lastSet, hl]
      | none =>
          by_cases hk : keyOf u = k
          · simp [lastSet, hl, hk, getField_applyField_eq c u k hk]
          · simp [lastSet, hl, hk, getField_applyField_ne c u k hk]

/-- C9: `NewLocketConfig` returns `(LocketConfig{}, err)` when the file
cannot be opened and when it does not decode as JSON; a decoded file
yields no error, and every field of the result is the file's last
assignment to its key, or its `DefaultLocketConfig` value when the file
never assigns the key — in particular the database driver defaults to
`"mysql"` and the lager config to `DefaultLagerConfig`. -/
theorem new_locket_config_spec :
    NewLocketConfig none = (zeroLocketConfig, some ConfigError.openError) ∧
    NewLocketConfig (some none) =
      (zeroLocketConfig, some ConfigError.decodeError) ∧
    (∀ fs : List ConfigField, (NewLocketConfig (some (some fs))).2 = none) ∧
    (∀ (fs : List ConfigField) (k : ConfigKey),
      getField k (NewLocketConfig (some (some fs))).1 =
        (lastSet k fs).getD (getField k DefaultLocketConfig)) ∧
    getField ConfigKey.databaseDriver DefaultLocketConfig =
      ConfigField.databaseDriver "mysql" ∧
    DefaultLocketConfig.lagerConfig = DefaultLagerConfig := by
  refine ⟨rfl, rfl, fun fs => rfl, fun fs k => ?_, rfl, rfl⟩
  exact getField_foldl k fs DefaultLocketConfig

/-- DONE and FAILED absorb any single event. -/
theorem runnerStep_terminal (cfg : RunnerConfig) (s : RunnerState)
    (ev : RunnerEvent)
    (h : s.phase = RunnerPhase.done ∨ ∃ e, s.phase = RunnerPhase.failed e) :
    runnerStep cfg s ev = s := by
  rcases h with h | ⟨e, h⟩ <;> cases ev <;> simp [runnerStep, h]

/-- DONE and FAILED absorb any event schedule. -/
theorem runnerRun_terminal (cfg : RunnerConfig) :
    ∀ (evs : List RunnerEvent) (s : RunnerState),
      (s.phase = RunnerPhase.done ∨ ∃ e, s.phase = RunnerPhase.failed e) →
      evs.foldl (runnerStep cfg) s = s := by
  intro evs
  induction evs with
  | nil => intro s _; rfl
  | cons ev evs ih =>
      intro s h
      simp only [List.foldl_cons]
      rw [runnerStep_terminal cfg s ev h]
      exact ih s h

/-- A run of failed acquire attempts from an ACQUIRING state: one Lock
call with the configured resource and ttl, and one retry-interval sleep,
per failure; nothing else changes. -/
theorem runnerRun_acquire_failures (cfg : RunnerConfig) :
    ∀ (errs : List GoError) (s : RunnerState),
      s.phase = RunnerPhase.acquiring →
      (errs.map (fun e => RunnerEvent.lockDone (Except.error e))).foldl
          (runnerStep cfg) s =
        { s with
          lockCalls := s.lockCalls ++
            List.replicate errs.length (cfg.resource, cfg.ttlInSeconds)
          sleeps := s.sleeps ++ List.replicate errs.length cfg.retryInterval } := by
  intro errs
  induction errs with
  | nil => intro s hs; simp
  | cons e errs ih =>
      intro s hs
      simp only [List.map_cons, List.foldl_cons]
      have hstep : runnerStep cfg s (RunnerEvent.lockDone (Except.error e)) =
          { s with
            lockCalls := s.lockCalls ++ [(cfg.resource, cfg.ttlInSeconds)]
            sleeps := s.sleeps ++ [cfg.retryInterval] } := by
        simp [runnerStep, hs]
      rw [hstep, ih _ (by exact hs)]
      simp [List.replicate_succ, List.append_assoc]

/-- Any event other than a successful Lock completion leaves *ready*
untouched. -/
theorem runnerStep_ready (cfg : RunnerConfig) (s : RunnerState)
    (ev : RunnerEvent)
    (h : ∀ u : Unit, ev ≠ RunnerEvent.lockDone (Except.ok u)) :
    (runnerStep cfg s ev).ready = s.ready := by
  cases ev with
  | lockDone out =>
      cases out with
      | ok u => exact absurd rfl (h u)
      | error e => cases hp : s.phase <;> simp [runnerStep, hp]
  | cancel rel => cases hp : s.phase <;> simp [runnerStep, hp]

/-- A schedule with no successful Lock completion never raises
*ready*. -/
theorem runnerRun_ready_needs_success (cfg : RunnerConfig) :
    ∀ evs : List RunnerEvent,
      (∀ u : Unit, RunnerEvent.lockDone (Except.ok u) ∉ evs) →
      (runnerRun cfg evs).ready = false := by
  have general :
      ∀ (evs : List RunnerEvent) (s : RunnerState),
        (∀ u : Unit, RunnerEvent.lockDone (Except.ok u) ∉ evs) →
        s.ready = false →
        (evs.foldl (runnerStep cfg) s).ready = false := by
    intro evs
    induction evs with
    | nil => intro s _ hs; exact hs
    | cons ev evs ih =>
        intro s h hs
        simp only [List.foldl_cons]
        refine ih _ (fun u hu => h u (List.mem_cons_of_mem ev hu)) ?_
        rw [runnerStep_ready cfg s ev
          (fun u hu => h u (hu ▸ List.mem_cons_self ev evs))]
        exact hs
  intro evs h
  exact general evs runnerInit h rfl

/-- C6: while acquiring, after any number of failed Lock RPCs the Runner
has issued exactly one Lock call per attempt, always with the identical
resource and ttl, slept `retry_interval` through the injected clock after
each failure, and not yet raised *ready*; the first successful Lock RPC
raises *ready* and moves it to HOLDING; and no schedule whatsoever raises
*ready* without a successful Lock RPC. -/
theorem runner_acquire_retry (cfg : RunnerConfig) (errs : List GoError) :
    runnerRun cfg (errs.map (fun e => RunnerEvent.lockDone (Except.error e))) =
      { phase := RunnerPhase.acquiring
        lockCalls := List.replicate errs.length (cfg.resource, cfg.ttlInSeconds)
        releaseCalls := []
        sleeps := List.replicate errs.length cfg.retryInterval
        ready := false } ∧
    runnerRun cfg (errs.map (fun e => RunnerEvent.lockDone (Except.error e)) ++
        [RunnerEvent.lockDone (Except.ok ())]) =
      { phase := RunnerPhase.holding
        lockCalls :=
          List.replicate (errs.length + 1) (cfg.resource, cfg.ttlInSeconds)
        releaseCalls := []
        sleeps := List.replicate errs.length cfg.retryInterval
        ready := true } ∧
    (∀ evs : List RunnerEvent,
      (∀ u : Unit, RunnerEvent.lockDone (Except.ok u) ∉ evs) →
      (runnerRun cfg evs).ready = false) := by
  have hfail := runnerRun_acquire_failures cfg errs runnerInit rfl
  refine ⟨?_, ?_, runnerRun_ready_needs_success cfg⟩
  · rw [runnerRun, hfail]
    simp [runnerInit]
  · rw [runnerRun, List.foldl_append, hfail]
    simp [runnerInit, runnerStep, List.replicate_succ']

/-- Witness for C6 at two failed acquires, and a one-failure schedule for
the no-success-no-ready part. -/
theorem runner_acquire_retry_witness :
    runnerRun { resource := exResource, ttlInSeconds := 5, retryInterval := 1 }
        ([GoError.lockCollision, GoError.lockCollision].map
          (fun e => RunnerEvent.lockDone (Except.error e))) =
      { phase := RunnerPhase.acquiring
        lockCalls := List.replicate 2 (exResource, 5)
        releaseCalls := []
        sleeps := List.replicate 2 1
        ready := false } ∧
    (runnerRun { resource := exResource, ttlInSeconds := 5, retryInterval := 1 }
        [RunnerEvent.lockDone (Except.error GoError.lockCollision)]).ready =
      false := by
  have h := runner_acquire_retry
    { resource := exResource, ttlInSeconds := 5, retryInterval := 1 }
    [GoError.lockCollision, GoError.lockCollision]
  exact ⟨h.1, h.2.2 [RunnerEvent.lockDone (Except.error GoError.lockCollision)]
    (by decide)⟩

/-- C7: from any schedule that leaves the Runner HOLDING, a renewal that
returns an error moves it to FAILED carrying that error at that very
event — the renewal is not retried and no later event changes anything —
and the application observes the non-nil error `e`. -/
theorem runner_renewal_error_fatal (cfg : RunnerConfig)
    (evs : List RunnerEvent) (e : GoError) (more : List RunnerEvent)
    (h : (runnerRun cfg evs).phase = RunnerPhase.holding) :
    runnerRun cfg (evs ++ RunnerEvent.lockDone (Except.error e) :: more) =
      { runnerRun cfg evs with
        phase := RunnerPhase.failed e
        lockCalls := (runnerRun cfg evs).lockCalls ++
          [(cfg.resource, cfg.ttlInSeconds)]
        sleeps := (runnerRun cfg evs).sleeps ++ [cfg.retryInterval] } ∧
    runnerExit
      (runnerRun cfg (evs ++ RunnerEvent.lockDone (Except.error e) :: more)) =
      some (some e) := by
  have hstep : runnerStep cfg (runnerRun cfg evs)
      (RunnerEvent.lockDone (Except.error e)) =
      { runnerRun cfg evs with
        phase := RunnerPhase.failed e
        lockCalls := (runnerRun cfg evs).lockCalls ++
          [(cfg.resource, cfg.ttlInSeconds)]
        sleeps := (runnerRun cfg evs).sleeps ++ [cfg.retryInterval] } := by
    simp [runnerStep, h]
  have hrun : runnerRun cfg (evs ++ RunnerEvent.lockDone (Except.error e) :: more) =
      { runnerRun cfg evs with
        phase := RunnerPhase.failed e
        lockCalls := (runnerRun cfg evs).lockCalls ++
          [(cfg.resource, cfg.ttlInSeconds)]
        sleeps := (runnerRun cfg evs).sleeps ++ [cfg.retryInterval] } := by
    rw [runnerRun, List.foldl_append, List.foldl_cons]
    rw [show List.foldl (runnerStep cfg) runnerInit evs = runnerRun cfg evs from rfl]
    rw [hstep]
    exact runnerRun_terminal cfg more _ (Or.inr ⟨e, rfl⟩)
  exact ⟨hrun, by rw [hrun]; rfl⟩

/-- Witness for C7: acquire once, then a failed renewal, then further
events that change nothing. -/
theorem runner_renewal_error_fatal_witness :
    runnerRun
        { resource := exResource, ttlInSeconds := 5, retryInterval := 1 }
        ([RunnerEvent.lockDone (Except.ok ())] ++
          RunnerEvent.lockDone (Except.error (GoError.other "gone")) ::
          [RunnerEvent.lockDone (Except.ok ()), RunnerEvent.cancel (Except.ok ())]) =
      { runnerRun
          { resource := exResource, ttlInSeconds := 5, retryInterval := 1 }
          [RunnerEvent.lockDone (Except.ok ())] with
        phase := RunnerPhase.failed (GoError.other "gone")
        lockCalls :=
          (runnerRun
            { resource := exResource, ttlInSeconds := 5, retryInterval := 1 }
            [RunnerEvent.lockDone (Except.ok ())]).lockCalls ++ [(exResource, 5)]
        sleeps :=
          (runnerRun
            { resource := exResource, ttlInSeconds := 5, retryInterval := 1 }
            [RunnerEvent.lockDone (Except.ok ())]).sleeps ++ [1] } ∧
    runnerExit
      (runnerRun
        { resource := exResource, ttlInSeconds := 5, retryInterval := 1 }
        ([RunnerEvent.lockDone (Except.ok ())] ++
          RunnerEvent.lockDone (Except.error (GoError.other "gone")) ::
          [RunnerEvent.lockDone (Except.ok ()), RunnerEvent.cancel (Except.ok ())])) =
      some (some (GoError.other "gone")) :=
  runner_renewal_error_fatal
    { resource := exResource, ttlInSeconds := 5, retryInterval := 1 }
    [RunnerEvent.lockDone (Except.ok ())] (GoError.other "gone")
    [RunnerEvent.lockDone (Except.ok ()), RunnerEvent.cancel (Except.ok ())] rfl

/-- One step preserves the invariant that a Runner still ACQUIRING or
HOLDING has issued no Release call. -/
theorem runnerStep_no_release_inv (cfg : RunnerConfig) (s : RunnerState)
    (ev : RunnerEvent)
    (h : (s.phase = RunnerPhase.acquiring ∨ s.phase = RunnerPhase.holding) →
      s.releaseCalls = []) :
    ((runnerStep cfg s ev).phase = RunnerPhase.acquiring ∨
      (runnerStep cfg s ev).phase = RunnerPhase.holding) →
    (runnerStep cfg s ev).releaseCalls = [] := by
  cases ev with
  | lockDone out =>
      cases hp : s.phase with
      | acquiring =>
          cases out <;> simp [runnerStep, hp] <;> exact h (Or.inl hp)
      | holding =>
          cases out <;> simp [runnerStep, hp] <;> exact h (Or.inr hp)
      | done => simp [runnerStep, hp]
      | failed e => simp [runnerStep, hp]
  | cancel rel =>
      cases hp : s.phase with
      | acquiring => simp [runnerStep, hp]
      | holding => simp [runnerStep, hp]
      | done => simp [runnerStep, hp]
      | failed e => simp [runnerStep, hp]

/-- A Runner that is still ACQUIRING or HOLDING has issued no Release
call. -/
theorem runnerRun_no_release (cfg : RunnerConfig) :
    ∀ evs : List RunnerEvent,
      ((runnerRun cfg evs).phase = RunnerPhase.acquiring ∨
        (runnerRun cfg evs).phase = RunnerPhase.holding) →
      (runnerRun cfg evs).releaseCalls = [] := by
  have general :
      ∀ (evs : List RunnerEvent) (s : RunnerState),
        ((s.phase = RunnerPhase.acquiring ∨ s.phase = RunnerPhase.holding) →
          s.releaseCalls = []) →
        ((evs.foldl (runnerStep cfg) s).phase = RunnerPhase.acquiring ∨
          (evs.foldl (runnerStep cfg) s).phase = RunnerPhase.holding) →
        (evs.foldl (runnerStep cfg) s).releaseCalls = [] := by
    intro evs
    induction evs with
    | nil => intro s h; exact h
    | cons ev evs ih =>
        intro s h
        simp only [List.foldl_cons]
        exact ih _ (runnerStep_no_release_inv cfg s ev h)
  intro evs
  exact general evs runnerInit (fun _ => rfl)

/-- C8: from any schedule that leaves the Runner HOLDING, a cancellation
makes it call Release exactly once, with the configured resource,
whatever that call returns, and end in DONE with a clean exit; later
events change nothing. -/
theorem runner_cancel_releases_once (cfg : RunnerConfig)
    (evs : List RunnerEvent) (rel : Except GoError Unit)
    (more : List RunnerEvent)
    (h : (runnerRun cfg evs).phase = RunnerPhase.holding) :
    (runnerRun cfg (evs ++ RunnerEvent.cancel rel :: more)).releaseCalls =
      [cfg.resource] ∧
    (runnerRun cfg (evs ++ RunnerEvent.cancel rel :: more)).phase =
      RunnerPhase.done ∧
    runnerExit (runnerRun cfg (evs ++ RunnerEvent.cancel rel :: more)) =
      some none := by
  have hprev : (runnerRun cfg evs).releaseCalls = [] :=
    runnerRun_no_release cfg evs (Or.inr h)
  have hstep : runnerStep cfg (runnerRun cfg evs) (RunnerEvent.cancel rel) =
      { runnerRun cfg evs with
        phase := RunnerPhase.done
        releaseCalls := (runnerRun cfg evs).releaseCalls ++ [cfg.resource] } := by
    simp [runnerStep, h]
  have hrun : runnerRun cfg (evs ++ RunnerEvent.cancel rel :: more) =
      { runnerRun cfg evs with
        phase := RunnerPhase.done
        releaseCalls := (runnerRun cfg evs).releaseCalls ++ [cfg.resource] } := by
    rw [runnerRun, List.foldl_append, List.foldl_cons]
    rw [show List.foldl (runnerStep cfg) runnerInit evs = runnerRun cfg evs from rfl]
    rw [hstep]
    exact runnerRun_terminal cfg more _ (Or.inl rfl)
  rw [hrun]
  simp [hprev, runnerExit]

/-- Witness for C8: acquire once, cancel with a failing Release outcome
(ignored), then further events that change nothing. -/
theorem runner_cancel_releases_once_witness :
    (runnerRun
        { resource := exResource, ttlInSeconds := 5, retryInterval := 1 }
        ([RunnerEvent.lockDone (Except.ok ())] ++
          RunnerEvent.cancel (Except.error GoError.notOwner) ::
          [RunnerEvent.lockDone (Except.ok ())])).releaseCalls =
      [exResource] ∧
    (runnerRun
        { resource := exResource, ttlInSeconds := 5, retryInterval := 1 }
        ([RunnerEvent.lockDone (Except.ok ())] ++
          RunnerEvent.cancel (Except.error GoError.notOwner) ::
          [RunnerEvent.lockDone (Except.ok ())])).phase = RunnerPhase.done ∧
    runnerExit
      (runnerRun
        { resource := exResource, ttlInSeconds := 5, retryInterval := 1 }
        ([RunnerEvent.lockDone (Except.ok ())] ++
          RunnerEvent.cancel (Except.error GoError.notOwner) ::
          [RunnerEvent.lockDone (Except.ok ())])) = some none :=
  runner_cancel_releases_once
    { resource := exResource, ttlInSeconds := 5, retryInterval := 1 }
    [RunnerEvent.lockDone (Except.ok ())] (Except.error GoError.notOwner)
    [RunnerEvent.lockDone (Except.ok ())] rfl

end Locket
